import Mathlib

/-!
Verification of the ONSPD processor (`onspd_tools/onspd_processor.py`).

The development shallowly embeds the row-processing pipeline of
`ONSPDProcessor`: the declarative field-mapping table
(`ONSPD_FIELD_MAPPINGS`), per-row field extraction with dependency
nulling, transforms and type coercion (`_process_chunk`), lookup-table
enrichment (`_add_human_readable_names`), chunked per-file processing
(`process_onspd_csv`) and directory-level processing with statistics
(`process_onspd_csv_directory`).

Rows are lists of raw CSV cell strings.  The pandas reader
(`dtype=str, na_values=[''], keep_default_na=False`) turns an empty cell
into NaN, whose `str()` is the text "nan"; `pdCell` models that reading.
Python `int(float(_))` / `float(_)` coercions are parameters
(`ip : String → Option Int`, `fk : String → Bool`) since no verified
property depends on numeric values, only on parse success; a successful
float coercion is represented by the accepted literal.
-/

set_option autoImplicit false

namespace Onspd

/-! ## String primitives (structural, kernel-computable) -/

/-- Whitespace characters stripped by Python `str.strip()`. -/
def isPyWs (c : Char) : Bool :=
  c == ' ' || c == '\t' || c == '\n' || c == '\r' || c == '\x0b' || c == '\x0c'

/-- Python `str.strip()`: drop leading and trailing whitespace. -/
def stripStr (s : String) : String :=
  String.mk (((s.data.dropWhile isPyWs).reverse.dropWhile isPyWs).reverse)

/-- ASCII lowercase of one character, as Python `str.lower()` acts on ASCII
(all codes compared by the processor are ASCII). -/
def lowChar (c : Char) : Char :=
  if 65 ≤ c.toNat ∧ c.toNat ≤ 90 then Char.ofNat (c.toNat + 32) else c

/-- Python `str.lower()` (ASCII fragment). -/
def lowerStr (s : String) : String :=
  String.mk (s.data.map lowChar)

/-- Python `x.replace(" ", "")`: remove every space character. -/
def remSpaces (s : String) : String :=
  String.mk (s.data.filter (fun c => !(c == ' ')))

/-- Helper for `splitSp`: accumulate the current piece (reversed). -/
def splitSpGo : List Char → List Char → List (List Char)
  | [], acc => [acc.reverse]
  | c :: rest, acc =>
    if c == ' ' then acc.reverse :: splitSpGo rest [] else splitSpGo rest (c :: acc)

/-- Python `x.split(" ")`: split on each single space, keeping empty pieces. -/
def splitSp (cs : List Char) : List (List Char) :=
  splitSpGo cs []

/-! ## Data model -/

/-- A scalar held by a flat record: string, coerced int, coerced float
(represented by the accepted literal), or a raw lookup-table object passed
through by the enricher's fallback branch (JSON payloads modelled as
string-to-string maps). -/
inductive Value where
  | str : String → Value
  | vint : Int → Value
  | vfloat : String → Value
  | vobj : List (String × String) → Value
deriving DecidableEq

/-- Python truthiness for the values a record can hold.  The code only ever
truth-tests string-valued fields (`postcode` and the enricher's code fields),
so the `vfloat` case is immaterial; Python would test the numeric value. -/
def pyTruthy : Value → Bool
  | .str s => decide (s ≠ "")
  | .vint n => decide (n ≠ 0)
  | .vfloat _ => true
  | .vobj d => decide (d ≠ [])

/-- Declared coercion of a field mapping (`"type"` key). -/
inductive FType where
  | tint
  | tfloat
deriving DecidableEq

/-- The three transform closures appearing in `ONSPD_FIELD_MAPPINGS`
(`pc_compact`, `incode`, `outcode`), as a data-only enumeration. -/
inductive Transform where
  | compactT
  | incodeT
  | outcodeT
deriving DecidableEq

/-- `x.replace(" ", "") if x else ""` / `x.split(" ")[1] if x and " " in x
else ""` / `x.split(" ")[0] if x and " " in x else ""`.  With `" " in x` the
split has at least two pieces, so the `getD` defaults are never used. -/
def applyTransform : Transform → String → String
  | .compactT, x => if x = "" then "" else remSpaces x
  | .incodeT, x =>
    if x ≠ "" ∧ x.data.contains ' ' then String.mk ((splitSp x.data).getD 1 []) else ""
  | .outcodeT, x =>
    if x ≠ "" ∧ x.data.contains ' ' then String.mk ((splitSp x.data).getD 0 []) else ""

/-- One rule of the declarative mapping table (`onspd_processor.py:35-66`). -/
structure FieldMapping where
  column : String
  onspd_code : String
  ftype : Option FType := none
  transform : Option Transform := none
  depends_on : Option String := none
deriving DecidableEq

/-- `ONSPDProcessor.ONSPD_FIELD_MAPPINGS` (`onspd_processor.py:35-66`). -/
def ONSPD_FIELD_MAPPINGS : List FieldMapping := [
  { column := "postcode", onspd_code := "pcds" },
  { column := "pc_compact", onspd_code := "pcds", transform := some .compactT },
  { column := "eastings", onspd_code := "oseast1m", ftype := some .tint },
  { column := "northings", onspd_code := "osnrth1m", ftype := some .tint },
  { column := "latitude", onspd_code := "lat", ftype := some .tfloat,
    depends_on := some "osnrth1m" },
  { column := "longitude", onspd_code := "long", ftype := some .tfloat,
    depends_on := some "oseast1m" },
  { column := "country_code", onspd_code := "ctry" },
  { column := "nhs_ha_code", onspd_code := "oshlthau" },
  { column := "admin_county_id", onspd_code := "oscty" },
  { column := "admin_district_id", onspd_code := "oslaua" },
  { column := "admin_ward_id", onspd_code := "osward" },
  { column := "parish_id", onspd_code := "parish" },
  { column := "quality", onspd_code := "osgrdind", ftype := some .tint },
  { column := "constituency_id", onspd_code := "pcon" },
  { column := "european_electoral_region_code", onspd_code := "eer" },
  { column := "region_code", onspd_code := "rgn" },
  { column := "primary_care_trust_code", onspd_code := "pct" },
  { column := "lsoa_id", onspd_code := "lsoa11" },
  { column := "msoa_id", onspd_code := "msoa11" },
  { column := "nuts_id", onspd_code := "itl" },
  { column := "incode", onspd_code := "pcds", transform := some .incodeT },
  { column := "outcode", onspd_code := "pcds", transform := some .outcodeT },
  { column := "ced_id", onspd_code := "ced" },
  { column := "ccg_id", onspd_code := "sicbl" },
  { column := "date_of_introduction", onspd_code := "dointr" },
  { column := "date_of_termination", onspd_code := "doterm" },
  { column := "pfa_id", onspd_code := "pfa" }]

/-- A flat record: dict from target column (and enricher label) names to
nullable scalars, observed only through `.get` in the source, so an absent
key and an explicit `None` are both `none`. -/
abbrev FlatRecord := String → Option Value

def emptyRecord : FlatRecord := fun _ => none

/-- Python `row[k] = v` on a dict. -/
def setField (r : FlatRecord) (k : String) (v : Option Value) : FlatRecord :=
  fun q => if q = k then v else r q

/-! ## Field extraction (`_process_chunk`, `onspd_processor.py:239-277`) -/

/-- `str(row.iloc[i])` under the reader options `dtype=str, na_values=['']`,
`keep_default_na=False`: an empty cell is NaN and prints as "nan"; any other
cell is its own text.  Out-of-range indices are guarded by the callers. -/
def pdCell (row : List String) (i : Nat) : String :=
  match row[i]? with
  | some c => if c = "" then "nan" else c
  | none => "nan"

/-- `value = str(row.iloc[idx]).strip()` followed by the empty/"nan"
nulling (`onspd_processor.py:242-246`). -/
def readCell (row : List String) (i : Nat) : Option String :=
  let v := stripStr (pdCell row i)
  if v = "" ∨ lowerStr v = "nan" then none else some v

/-- Dependency nulling (`onspd_processor.py:249-255`): when the mapping
declares `depends_on` and the dependency column resolves to an in-range
index, a trimmed dependency cell that is empty, "nan" (case-insensitive)
or "0" forces the value to `None`. -/
def depNull (hm : String → Option Nat) (row : List String)
    (dep : Option String) (v : Option String) : Option String :=
  match dep with
  | none => v
  | some code =>
    match hm code with
    | none => v
    | some di =>
      if di < row.length then
        let dv := stripStr (pdCell row di)
        if dv = "" ∨ lowerStr dv = "nan" ∨ dv = "0" then none else v
      else v

/-- `if 'transform' in field_def and value:` (`onspd_processor.py:258-263`):
the transform runs only on a truthy (non-empty) value. -/
def applyTf (t : Option Transform) (v : Option String) : Option String :=
  match t, v with
  | some tr, some s => if s = "" then some s else some (applyTransform tr s)
  | _, v => v

/-- `if value and field_def.get('type'):` (`onspd_processor.py:266-273`):
type coercion runs only on a truthy value and nulls the value on failure;
otherwise the string is kept. -/
def coerceVal (ip : String → Option Int) (fk : String → Bool)
    (t : Option FType) (v : Option String) : Option Value :=
  match v with
  | none => none
  | some s =>
    if s = "" then some (.str s)
    else
      match t with
      | none => some (.str s)
      | some .tint => (ip s).map Value.vint
      | some .tfloat => if fk s then some (.vfloat s) else none

/-- One mapping rule applied to one row (`onspd_processor.py:240-277`):
resolve the source code through the file's header map (absent or
out-of-range gives `None`), read and null-normalise the cell, apply
dependency nulling, transform, and coercion. -/
def extractField (ip : String → Option Int) (fk : String → Bool)
    (hm : String → Option Nat) (row : List String) (m : FieldMapping) : Option Value :=
  match hm m.onspd_code with
  | none => none
  | some idx =>
    if idx < row.length then
      coerceVal ip fk m.ftype (applyTf m.transform (depNull hm row m.depends_on (readCell row idx)))
    else none

/-- The full extraction loop over `ONSPD_FIELD_MAPPINGS`, building the
`processed_row` dict. -/
def extractRow (ip : String → Option Int) (fk : String → Bool)
    (hm : String → Option Nat) (row : List String) : FlatRecord :=
  ONSPD_FIELD_MAPPINGS.foldl
    (fun r m => setField r m.column (extractField ip fk hm row m)) emptyRecord

/-! ## Lookup enrichment (`_add_human_readable_names`, lines 288-340) -/

/-- A value of a dict-shaped lookup table: either a plain label string or a
nested object (JSON payload modelled as a string-to-string map). -/
inductive LEntry where
  | s : String → LEntry
  | o : List (String × String) → LEntry
deriving DecidableEq

/-- A loaded lookup table: dict-shaped (`code` key to entry) or list-shaped
(list of objects matched on their "code" field). -/
inductive LookupTable where
  | dict : List (String × LEntry) → LookupTable
  | arr : List (List (String × String)) → LookupTable
deriving DecidableEq

/-- Resolve one code in one table (`onspd_processor.py:316-340`): a dict hit
yields the string, or the nested object's "name" then "value" field, else
the whole object; a list is scanned for a matching "code" field, extracting
"name" then "value".  `none` means no assignment is made (a list item with
neither "name" nor "value" assigns Python `None`, observationally the
same through `.get`). -/
def lookupLabel (tbl : LookupTable) (code : String) : Option Value :=
  match tbl with
  | .dict entries =>
    match entries.lookup code with
    | some (.s v) => some (.str v)
    | some (.o d) =>
      match d.lookup "name" with
      | some n => some (.str n)
      | none =>
        match d.lookup "value" with
        | some v => some (.str v)
        | none => some (.vobj d)
    | none => none
  | .arr items =>
    match items.find? (fun it => it.lookup "code" == some code) with
    | some it =>
      match it.lookup "name" with
      | some n => some (.str n)
      | none =>
        match it.lookup "value" with
        | some v => some (.str v)
        | none => none
    | none => none

/-- The fixed `(code_field, table_name, name_field)` triples
(`onspd_processor.py:290-309`). -/
def ENRICH_MAPPINGS : List (String × String × String) := [
  ("country_code", "countries", "country"),
  ("admin_district_id", "districts", "admin_district"),
  ("admin_county_id", "counties", "admin_county"),
  ("admin_ward_id", "wards", "admin_ward"),
  ("parish_id", "parishes", "parish"),
  ("constituency_id", "constituencies", "parliamentary_constituency"),
  ("region_code", "regions", "region"),
  ("european_electoral_region_code", "european_registers", "european_electoral_region"),
  ("primary_care_trust_code", "pcts", "primary_care_trust"),
  ("ccg_id", "ccgs", "ccg"),
  ("lsoa_id", "lsoa", "lsoa"),
  ("msoa_id", "msoa", "msoa"),
  ("nuts_id", "nuts", "nuts"),
  ("pfa_id", "police_force_areas", "pfa"),
  ("ced_id", "ceds", "ced"),
  ("nhs_ha_code", "nhsHa", "nhs_ha")]

/-- The derived label field names the enricher may add. -/
def labelFieldNames : List String := ENRICH_MAPPINGS.map (fun em => em.2.2)

/-- The label one enrichment triple would assign, if any
(`onspd_processor.py:311-340`): a truthy code with a loaded table is
resolved.  A non-string code never matches (tables are keyed by strings),
mirroring Python's failed `code in lookup_table` /
`item.get('code') == code` checks. -/
def enrichVal (tables : String → Option LookupTable)
    (r : FlatRecord) (em : String × String × String) : Option Value :=
  match r em.1 with
  | some code =>
    if pyTruthy code then
      match tables em.2.1 with
      | some tbl =>
        match code with
        | .str s => lookupLabel tbl s
        | _ => none
      | none => none
    else none
  | none => none

/-- One enrichment triple: on a hit, set the label field, else leave the
record unchanged. -/
def enrichStep (tables : String → Option LookupTable)
    (r : FlatRecord) (em : String × String × String) : FlatRecord :=
  match enrichVal tables r em with
  | some v => setField r em.2.2 (some v)
  | none => r

/-- `_add_human_readable_names`, the loop over `ENRICH_MAPPINGS`. -/
def enrichRecord (tables : String → Option LookupTable) (r : FlatRecord) : FlatRecord :=
  ENRICH_MAPPINGS.foldl (enrichStep tables) r

/-! ## Row filtering and chunk processing (`_process_chunk`, lines 215-286) -/

/-- Skip of terminated postcodes (`onspd_processor.py:223-228`): the trimmed
`doterm` cell is truthy and differs from the literal "nan" (the `str()`
image of a pandas NaN), case-sensitively. -/
def skipTerminated (hm : String → Option Nat) (row : List String) : Bool :=
  match hm "doterm" with
  | some i =>
    if i < row.length then
      let dv := stripStr (pdCell row i)
      decide (dv ≠ "" ∧ dv ≠ "nan")
    else false
  | none => false

/-- Skip of duplicated embedded header rows (`onspd_processor.py:230-234`). -/
def skipHeaderRow (hm : String → Option Nat) (row : List String) : Bool :=
  match hm "pcd" with
  | some i =>
    if i < row.length then decide (lowerStr (stripStr (pdCell row i)) = "pcd")
    else false
  | none => false

/-- Python truthiness of `dict.get`'s result: `None` (or an absent key)
is falsy. -/
def pyTruthyOpt : Option Value → Bool
  | some v => pyTruthy v
  | none => false

/-- One row of `_process_chunk`'s loop: filters, extraction, enrichment,
and the `if processed_row.get('postcode')` retention check. -/
def processRow (ip : String → Option Int) (fk : String → Bool)
    (tables : String → Option LookupTable) (hm : String → Option Nat)
    (row : List String) : Option FlatRecord :=
  if skipTerminated hm row then none
  else if skipHeaderRow hm row then none
  else
    let r := enrichRecord tables (extractRow ip fk hm row)
    if pyTruthyOpt (r "postcode") then some r else none

/-- `_process_chunk`: the retained-row records of a chunk, in row order. -/
def processChunk (ip : String → Option Int) (fk : String → Bool)
    (tables : String → Option LookupTable) (hm : String → Option Nat)
    (rows : List (List String)) : List FlatRecord :=
  rows.filterMap (processRow ip fk tables hm)

/-! ## Chunked per-file processing (`process_onspd_csv`, lines 174-213) -/

/-- Helper for `chunksOf`: `cur` is the current chunk (reversed), `k` the
remaining capacity of the current chunk, `sz` the configured size. -/
def chunksGo (sz : Nat) : List (List String) → List (List String) → Nat →
    List (List (List String))
  | [], cur, _ => if cur.isEmpty then [] else [cur.reverse]
  | x :: xs, cur, 0 => cur.reverse :: chunksGo sz xs [x] (sz - 1)
  | x :: xs, cur, k + 1 => chunksGo sz xs (x :: cur) k

/-- The pandas `chunksize` streaming: consecutive chunks of `sz` rows (the
last possibly shorter).  Size 0 never occurs (pandas requires a positive
`chunksize`); it is mapped to a single chunk. -/
def chunksOf : Nat → List (List String) → List (List (List String))
  | _, [] => []
  | 0, l => [l]
  | sz + 1, l => chunksGo (sz + 1) l [] (sz + 1)

/-- One source CSV file, by the outcomes of the three operations the
processor performs on it: the existence check, the header-only read
(`_get_csv_column_mapping`), and the chunked body read. -/
structure CsvFile where
  fileExists : Bool
  headerRead : Except String (List String)
  bodyRead : Except String (List (List String))

/-- The per-file header map (`_get_csv_column_mapping`, lines 113-123):
lowercased column names to indices; a duplicated name keeps the last
index, as in the Python dict comprehension. -/
def buildHeaderMap (cols : List String) (name : String) : Option Nat :=
  ((cols.map lowerStr).foldl
    (fun acc c => (if c = name then some acc.2 else acc.1, acc.2 + 1)) (none, 0)).1

/-- `process_onspd_csv` (lines 174-213): missing file and header-read errors
propagate (the header read sits outside the `try`); an error while reading
or processing the body is caught and the file contributes zero rows; chunk
results are concatenated in read order. -/
def process_onspd_csv (ip : String → Option Int) (fk : String → Bool)
    (tables : String → Option LookupTable) (chunkSize : Nat) (f : CsvFile) :
    Except String (List FlatRecord) :=
  if f.fileExists = false then .error "CSV file not found"
  else
    match f.headerRead with
    | .error e => .error e
    | .ok cols =>
      match f.bodyRead with
      | .error _ => .ok []
      | .ok rows =>
        .ok (((chunksOf chunkSize rows).map
          (processChunk ip fk tables (buildHeaderMap cols))).flatten)

/-! ## Directory processing and statistics (lines 125-172) -/

/-- `ProcessingStats` (lines 20-27), without the wall-clock
`processing_time` field, which is not modelled. -/
structure ProcessingStats where
  total_rows_processed : Int
  active_postcodes : Int
  terminated_postcodes : Int
  with_coordinates : Int
deriving DecidableEq

/-- `file_stats['date_of_termination'].isna()` on one record. -/
def isActiveRec (r : FlatRecord) : Bool := (r "date_of_termination").isNone

/-- `file_stats.dropna(subset=['latitude', 'longitude'])` membership. -/
def hasCoordsRec (r : FlatRecord) : Bool :=
  (r "latitude").isSome && (r "longitude").isSome

/-- The per-file accumulation step of `process_onspd_csv_directory`
(lines 148-152): a non-empty per-file result is appended and counted. -/
def dirStep (acc : List FlatRecord × ProcessingStats) (fs : List FlatRecord) :
    List FlatRecord × ProcessingStats :=
  if 0 < fs.length then
    (acc.1 ++ fs,
      { total_rows_processed := acc.2.total_rows_processed + (fs.length : Int)
        active_postcodes := acc.2.active_postcodes + ((fs.filter isActiveRec).length : Int)
        terminated_postcodes := acc.2.terminated_postcodes
        with_coordinates := acc.2.with_coordinates + ((fs.filter hasCoordsRec).length : Int) })
  else acc

/-- Sequential processing of the discovered files, an exception from any
file aborting the run (the per-file call at line 146 is not guarded). -/
def exMapM {α β : Type} (g : α → Except String β) : List α → Except String (List β)
  | [] => .ok []
  | x :: xs =>
    match g x with
    | .error e => .error e
    | .ok y =>
      match exMapM g xs with
      | .error e => .error e
      | .ok ys => .ok (y :: ys)

/-- The directory a run processes: the existence check and the discovered
CSV files in discovery order. -/
structure CsvDir where
  dirExists : Bool
  files : List CsvFile

/-- `process_onspd_csv_directory` (lines 125-172): missing directory and an
empty file list raise; per-file results are folded into the combined frame
and the statistics; with no data at all the run returns an empty result
with a warning, before `terminated_postcodes` is derived (line 162). -/
def process_onspd_csv_directory (ip : String → Option Int) (fk : String → Bool)
    (tables : String → Option LookupTable) (chunkSize : Nat) (d : CsvDir) :
    Except String (List FlatRecord × ProcessingStats) :=
  if d.dirExists = false then .error "CSV directory not found"
  else if d.files.isEmpty then .error "No CSV files found"
  else
    match exMapM (process_onspd_csv ip fk tables chunkSize) d.files with
    | .error e => .error e
    | .ok results =>
      let p := results.foldl dirStep ([], ⟨0, 0, 0, 0⟩)
      if p.1.isEmpty then .ok ([], p.2)
      else .ok (p.1,
        { p.2 with terminated_postcodes :=
            p.2.total_rows_processed - p.2.active_postcodes })

/-- The active filter of the dataset assembler
(`generate_enhanced_postcode_data`, line 355). -/
def activeFilter (recs : List FlatRecord) : List FlatRecord :=
  recs.filter (fun r =>
    (r "date_of_termination").isNone || (r "date_of_termination" == some (.str "")))

/-! ## Concrete instances and observation helpers used by witnesses -/

/-- An int coercion that accepts nothing (coercion behaviour is immaterial
to the verified properties). -/
def ip0 : String → Option Int := fun _ => none

/-- A float coercion that accepts nothing. -/
def fk0 : String → Bool := fun _ => false

/-- A float coercion that accepts everything. -/
def fkA : String → Bool := fun _ => true

/-- No lookup tables loaded. -/
def tb0 : String → Option LookupTable := fun _ => none

/-- Records of an `ok` directory result. -/
def okRecs (e : Except String (List FlatRecord × ProcessingStats)) : List FlatRecord :=
  match e with
  | .ok p => p.1
  | .error _ => []

/-- Statistics of an `ok` directory result. -/
def okStats (e : Except String (List FlatRecord × ProcessingStats)) : ProcessingStats :=
  match e with
  | .ok p => p.2
  | .error _ => ⟨0, 0, 0, 0⟩

/-- The `latitude` rule of `ONSPD_FIELD_MAPPINGS`. -/
def latMapping : FieldMapping :=
  ⟨"latitude", "lat", some .tfloat, none, some "osnrth1m"⟩

/-- Header map of a file carrying `pcd, pcds, lat, osnrth1m`. -/
def hmDep : String → Option Nat := buildHeaderMap ["pcd", "pcds", "lat", "osnrth1m"]

/-- A row whose northings cell is the literal "0" while its lat cell holds a
parseable float. -/
def rowDep : List String := ["AB1 2CD", "AB1 2CD", "51.5", "0"]

/-- Header map of a file lacking the `osnrth1m` column. -/
def hmNoDep : String → Option Nat := buildHeaderMap ["pcd", "pcds", "lat"]

/-- Header map of a minimal `pcd, pcds` file. -/
def hmPc : String → Option Nat := buildHeaderMap ["pcd", "pcds"]

/-- A plain retained row. -/
def rowPlain : List String := ["x", "AB1 2CD"]

/-- A retained row whose pcds cell has no space. -/
def rowNoSpace : List String := ["x", "AB12CD"]

/-- The record the pipeline produces for `rowPlain`. -/
def c7rec : FlatRecord := (processChunk ip0 fk0 tb0 hmPc [rowPlain]).getD 0 emptyRecord

/-- The record the pipeline produces for `rowNoSpace`. -/
def c8rec : FlatRecord := (processRow ip0 fk0 tb0 hmPc rowNoSpace).getD emptyRecord

/-- A row whose doterm cell holds the literal text "nan": non-empty after
trimming, yet not skipped by `_process_chunk`'s termination filter. -/
def rowNanDoterm : List String := ["AB1 2CD", "AB1 2CD", "nan"]

/-- A directory with one file containing only `rowNanDoterm`. -/
def dirNanDoterm : CsvDir :=
  ⟨true, [⟨true, .ok ["pcd", "pcds", "doterm"], .ok [rowNanDoterm]⟩]⟩

/-- A file whose header-only read raises. -/
def badHeaderFile : CsvFile := ⟨true, .error "parse error", .ok []⟩

/-- A file whose chunked body read raises. -/
def bodyErrFile : CsvFile := ⟨true, .ok ["pcd", "pcds"], .error "io error"⟩

/-- A healthy file contributing one row. -/
def goodFile : CsvFile := ⟨true, .ok ["pcd", "pcds"], .ok [["x", "AB1 2CD"]]⟩

/-- A file for the C5 witness. -/
def c5file : CsvFile :=
  ⟨true, .ok ["pcd", "pcds"], .ok [["x", "AB1 2CD"], ["y", "ZZ9 9ZZ"]]⟩

/-- A directory whose only file has no data rows. -/
def dEmptyRows : CsvDir := ⟨true, [⟨true, .ok ["pcd"], .ok []⟩]⟩

/-- The all-zero statistics record. -/
def st0 : ProcessingStats := ⟨0, 0, 0, 0⟩

/-- Invariant maintained by the per-file statistics fold: active and
coordinate counts never exceed the total, `terminated_postcodes` stays at
its default 0 during the fold, and an empty combined frame forces zero
total and active counts. -/
def StatsInv (p : List FlatRecord × ProcessingStats) : Prop :=
  p.2.active_postcodes ≤ p.2.total_rows_processed ∧
  p.2.with_coordinates ≤ p.2.total_rows_processed ∧
  p.2.terminated_postcodes = 0 ∧
  (p.1 = [] → p.2.total_rows_processed = 0 ∧ p.2.active_postcodes = 0)

/-! ## Helper lemmas -/

theorem setField_same (r : FlatRecord) (k : String) (v : Option Value) :
    setField r k v k = v := by
  simp [setField]

theorem setField_other (r : FlatRecord) (k : String) (v : Option Value) (q : String)
    (h : q ≠ k) : setField r k v q = r q := by
  simp [setField, h]

theorem extractFold_frame (ip : String → Option Int) (fk : String → Bool)
    (hm : String → Option Nat) (row : List String) :
    ∀ (ms : List FieldMapping) (r : FlatRecord) (k : String),
      (∀ m ∈ ms, k ≠ m.column) →
      (ms.foldl (fun r m => setField r m.column (extractField ip fk hm row m)) r) k = r k := by
  intro ms
  induction ms with
  | nil => intro r k _; rfl
  | cons m ms ih =>
    intro r k h
    rw [List.foldl_cons, ih _ _ (fun m2 hm2 => h m2 (List.mem_cons_of_mem _ hm2)),
      setField_other _ _ _ _ (h m (List.mem_cons_self _ _))]

theorem extractRow_at (ip : String → Option Int) (fk : String → Bool)
    (hm : String → Option Nat) (row : List String) (i : Nat) (m : FieldMapping)
    (hsplit : ONSPD_FIELD_MAPPINGS =
      ONSPD_FIELD_MAPPINGS.take i ++ m :: ONSPD_FIELD_MAPPINGS.drop (i + 1))
    (hpost : ∀ m2 ∈ ONSPD_FIELD_MAPPINGS.drop (i + 1), m.column ≠ m2.column) :
    extractRow ip fk hm row m.column = extractField ip fk hm row m := by
  unfold extractRow
  rw [hsplit, List.foldl_append, List.foldl_cons,
    extractFold_frame ip fk hm row _ _ _ hpost, setField_same]

theorem enrichStep_frame (tables : String → Option LookupTable) (r : FlatRecord)
    (em : String × String × String) (k : String) (h : k ≠ em.2.2) :
    enrichStep tables r em k = r k := by
  unfold enrichStep
  cases enrichVal tables r em with
  | none => rfl
  | some v => exact setField_other _ _ _ _ h

theorem enrichFold_frame (tables : String → Option LookupTable) :
    ∀ (ms : List (String × String × String)) (r : FlatRecord) (k : String),
      (∀ em ∈ ms, k ≠ em.2.2) → (ms.foldl (enrichStep tables) r) k = r k := by
  intro ms
  induction ms with
  | nil => intro r k _; rfl
  | cons em ms ih =>
    intro r k h
    rw [List.foldl_cons, ih _ _ (fun e he => h e (List.mem_cons_of_mem _ he)),
      enrichStep_frame tables r em k (h em (List.mem_cons_self _ _))]

theorem enrichRecord_frame (tables : String → Option LookupTable) (r : FlatRecord)
    (k : String) (h : k ∉ labelFieldNames) : enrichRecord tables r k = r k := by
  apply enrichFold_frame
  intro em hem heq
  exact h (heq ▸ List.mem_map_of_mem (fun e => e.2.2) hem)

theorem chunksGo_flatten (sz : Nat) :
    ∀ (xs cur : List (List String)) (k : Nat),
      (chunksGo sz xs cur k).flatten = cur.reverse ++ xs := by
  intro xs
  induction xs with
  | nil =>
    intro cur k
    unfold chunksGo
    by_cases h : cur.isEmpty
    · rw [if_pos h, List.isEmpty_iff.mp h]
      rfl
    · rw [if_neg h]
      simp
  | cons x xs ih =>
    intro cur k
    cases k with
    | zero =>
      unfold chunksGo
      simp [ih]
    | succ k =>
      unfold chunksGo
      rw [ih]
      simp

theorem chunksOf_flatten (n : Nat) (l : List (List String)) :
    (chunksOf n l).flatten = l := by
  cases l with
  | nil => cases n <;> rfl
  | cons x xs =>
    cases n with
    | zero => simp [chunksOf]
    | succ n =>
      unfold chunksOf
      rw [chunksGo_flatten]
      rfl

theorem flatten_filterMap {α β : Type} (g : α → Option β) :
    ∀ ls : List (List α), (ls.map (List.filterMap g)).flatten = ls.flatten.filterMap g := by
  intro ls
  induction ls with
  | nil => rfl
  | cons a ls ih =>
    rw [List.map_cons, List.flatten_cons, ih, List.flatten_cons, List.filterMap_append]

theorem process_csv_ok (ip : String → Option Int) (fk : String → Bool)
    (tables : String → Option LookupTable) (cs : Nat) (cols : List String)
    (rows : List (List String)) :
    process_onspd_csv ip fk tables cs ⟨true, .ok cols, .ok rows⟩ =
      .ok (processChunk ip fk tables (buildHeaderMap cols) rows) := by
  unfold process_onspd_csv
  show Except.ok (((chunksOf cs rows).map
      (processChunk ip fk tables (buildHeaderMap cols))).flatten) = _
  unfold processChunk
  rw [flatten_filterMap, chunksOf_flatten]

theorem exMapM_congr_mid {α β : Type} (g : α → Except String β)
    (pre post : List α) (x y : α) (h : g x = g y) :
    exMapM g (pre ++ x :: post) = exMapM g (pre ++ y :: post) := by
  induction pre with
  | nil =>
    simp only [List.nil_append]
    unfold exMapM
    rw [h]
  | cons a pre ih =>
    simp only [List.cons_append]
    unfold exMapM
    rw [ih]

theorem exMapM_ok {α β : Type} (g : α → Except String β) :
    ∀ l : List α, (∀ x ∈ l, ∃ y, g x = .ok y) → ∃ ys, exMapM g l = .ok ys := by
  intro l
  induction l with
  | nil => intro _; exact ⟨[], rfl⟩
  | cons a l ih =>
    intro h
    obtain ⟨y, hy⟩ := h a (List.mem_cons_self _ _)
    obtain ⟨ys, hys⟩ := ih (fun x hx => h x (List.mem_cons_of_mem _ hx))
    refine ⟨y :: ys, ?_⟩
    unfold exMapM
    rw [hy, hys]

theorem applyTf_none (t : Option Transform) : applyTf t none = none := by
  cases t <;> rfl

theorem readCell_some (row : List String) (i : Nat) (s : String)
    (h : readCell row i = some s) :
    s = stripStr (pdCell row i) ∧ s ≠ "" ∧ lowerStr s ≠ "nan" := by
  unfold readCell at h
  by_cases hg : stripStr (pdCell row i) = "" ∨ lowerStr (stripStr (pdCell row i)) = "nan"
  · rw [if_pos hg] at h
    cases h
  · rw [if_neg hg] at h
    push_neg at hg
    cases h
    exact ⟨rfl, hg.1, hg.2⟩

theorem extractField_plain (ip : String → Option Int) (fk : String → Bool)
    (hm : String → Option Nat) (row : List String) (m : FieldMapping)
    (h1 : m.ftype = none) (h2 : m.transform = none) (h3 : m.depends_on = none) :
    extractField ip fk hm row m =
      match hm m.onspd_code with
      | none => none
      | some i => if i < row.length then (readCell row i).map Value.str else none := by
  unfold extractField
  cases hm m.onspd_code with
  | none => rfl
  | some i =>
    simp only
    by_cases hl : i < row.length
    · rw [if_pos hl, if_pos hl, h1, h2, h3]
      cases hv : readCell row i with
      | none => rfl
      | some s =>
        show (if s = "" then some (Value.str s) else some (Value.str s)) = some (Value.str s)
        exact ite_self _
    · rw [if_neg hl, if_neg hl]

theorem processRow_skip (ip : String → Option Int) (fk : String → Bool)
    (tables : String → Option LookupTable) (hm : String → Option Nat)
    (row : List String) (i : Nat)
    (h1 : hm "doterm" = some i) (h2 : i < row.length)
    (h3 : stripStr (pdCell row i) ≠ "") (h4 : stripStr (pdCell row i) ≠ "nan") :
    processRow ip fk tables hm row = none := by
  unfold processRow
  have hs : skipTerminated hm row = true := by
    unfold skipTerminated
    rw [h1]
    simp only
    rw [if_pos h2]
    exact decide_eq_true ⟨h3, h4⟩
  rw [hs]
  rfl

theorem processRow_some (ip : String → Option Int) (fk : String → Bool)
    (tables : String → Option LookupTable) (hm : String → Option Nat)
    (row : List String) (r : FlatRecord)
    (hr : processRow ip fk tables hm row = some r) :
    r = enrichRecord tables (extractRow ip fk hm row) ∧
    ∃ v, enrichRecord tables (extractRow ip fk hm row) "postcode" = some v ∧
      pyTruthy v = true := by
  unfold processRow at hr
  cases h1 : skipTerminated hm row <;> rw [h1] at hr
  · rw [if_neg (by decide)] at hr
    cases h2 : skipHeaderRow hm row <;> rw [h2] at hr
    · rw [if_neg (by decide)] at hr
      simp only at hr
      cases hb : pyTruthyOpt (enrichRecord tables (extractRow ip fk hm row) "postcode") <;>
        rw [hb] at hr
      · rw [if_neg (by decide)] at hr
        exact Option.noConfusion hr
      · rw [if_pos rfl] at hr
        refine ⟨(Option.some.inj hr).symm, ?_⟩
        cases hp : enrichRecord tables (extractRow ip fk hm row) "postcode" <;> rw [hp] at hb
        · exact Bool.noConfusion hb
        · next v => exact ⟨v, rfl, hb⟩
    · rw [if_pos rfl] at hr
      exact Option.noConfusion hr
  · rw [if_pos rfl] at hr
    exact Option.noConfusion hr

theorem dirStep_inv (acc : List FlatRecord × ProcessingStats) (fs : List FlatRecord)
    (h : StatsInv acc) : StatsInv (dirStep acc fs) := by
  obtain ⟨h1, h2, h3, h4⟩ := h
  unfold dirStep StatsInv
  by_cases hlen : 0 < fs.length
  · rw [if_pos hlen]
    have ha : ((fs.filter isActiveRec).length : Int) ≤ (fs.length : Int) := by
      exact_mod_cast List.length_filter_le _ _
    have hc : ((fs.filter hasCoordsRec).length : Int) ≤ (fs.length : Int) := by
      exact_mod_cast List.length_filter_le _ _
    refine ⟨by simp only; omega, by simp only; omega, h3, ?_⟩
    intro hnil
    have : fs = [] := (List.append_eq_nil.mp hnil).2
    rw [this] at hlen
    simp at hlen
  · rw [if_neg hlen]
    exact ⟨h1, h2, h3, h4⟩

theorem dirFold_inv (results : List (List FlatRecord)) :
    ∀ acc : List FlatRecord × ProcessingStats,
      StatsInv acc → StatsInv (results.foldl dirStep acc) := by
  induction results with
  | nil => intro acc h; exact h
  | cons fs results ih =>
    intro acc h
    rw [List.foldl_cons]
    exact ih _ (dirStep_inv acc fs h)

/-! ## Claims -/

/-- C1: for every row and every field mapping that declares `depends_on`,
if the dependency cell (resolved via the file's header map) is empty after
trimming, the literal "nan", or the literal "0", the extracted target field
is null, regardless of the target's own cell content. -/
theorem c1_dependency_null (ip : String → Option Int) (fk : String → Bool)
    (hm : String → Option Nat) (row : List String) (m : FieldMapping)
    (dep : String) (di : Nat)
    (hdep : m.depends_on = some dep) (hdi : hm dep = some di) (hlt : di < row.length)
    (hval : stripStr (pdCell row di) = "" ∨ stripStr (pdCell row di) = "nan" ∨
      stripStr (pdCell row di) = "0") :
    extractField ip fk hm row m = none := by
  unfold extractField
  cases hidx : hm m.onspd_code with
  | none => rfl
  | some idx =>
    simp only
    by_cases hl : idx < row.length
    · rw [if_pos hl]
      have hd : stripStr (pdCell row di) = "" ∨
          lowerStr (stripStr (pdCell row di)) = "nan" ∨
          stripStr (pdCell row di) = "0" := by
        rcases hval with h | h | h
        · exact Or.inl h
        · refine Or.inr (Or.inl ?_)
          rw [h]
          rfl
        · exact Or.inr (Or.inr h)
      have hdn : depNull hm row m.depends_on (readCell row idx) = none := by
        simp only [hdep, depNull, hdi]
        rw [if_pos hlt, if_pos hd]
      rw [hdn, applyTf_none]
      rfl
    · rw [if_neg hl]

/-- Witness for C1: `latitude` with a northings cell holding the literal
"0" while the lat cell holds a parseable float. -/
theorem c1_dependency_null_w :
    latMapping.depends_on = some "osnrth1m" ∧ hmDep "osnrth1m" = some 3 ∧
    3 < rowDep.length ∧ stripStr (pdCell rowDep 3) = "0" ∧
    extractField ip0 fkA hmDep rowDep latMapping = none :=
  ⟨rfl, by decide, by decide, by decide,
    c1_dependency_null ip0 fkA hmDep rowDep latMapping "osnrth1m" 3 rfl (by decide)
      (by decide) (Or.inr (Or.inr (by decide)))⟩

/-- C9: for a mapping with `depends_on` whose dependency source code is
absent from the file's header map, no dependency nulling is applied: the
extraction behaves exactly as it does for the same mapping stripped of its
`depends_on`, i.e. the target keeps the value derived from its own cell
after transform and coercion. -/
theorem c9_missing_dependency (ip : String → Option Int) (fk : String → Bool)
    (hm : String → Option Nat) (row : List String) (m : FieldMapping) (dep : String)
    (hdep : m.depends_on = some dep) (habs : hm dep = none) :
    extractField ip fk hm row m =
      extractField ip fk hm row ⟨m.column, m.onspd_code, m.ftype, m.transform, none⟩ := by
  unfold extractField
  cases hidx : hm m.onspd_code with
  | none => rfl
  | some idx =>
    simp only
    by_cases hl : idx < row.length
    · rw [if_pos hl, if_pos hl]
      simp only [hdep, depNull, habs]
    · rw [if_neg hl, if_neg hl]

/-- Witness for C9: `latitude` against a header lacking `osnrth1m`. -/
theorem c9_missing_dependency_w :
    latMapping.depends_on = some "osnrth1m" ∧ hmNoDep "osnrth1m" = none ∧
    extractField ip0 fkA hmNoDep rowDep latMapping =
      extractField ip0 fkA hmNoDep rowDep ⟨"latitude", "lat", some .tfloat, none, none⟩ :=
  ⟨rfl, by decide,
    c9_missing_dependency ip0 fkA hmNoDep rowDep latMapping "osnrth1m" rfl (by decide)⟩

/-- C5: chunking is observationally transparent — processing a file as one
chunk whose size equals the file's row count yields the same records (even
in the same order, hence the same set) as processing it in chunks of
size 1. -/
theorem c5_chunking (ip : String → Option Int) (fk : String → Bool)
    (tables : String → Option LookupTable) (f : CsvFile) (rows : List (List String))
    (h : f.bodyRead = .ok rows) :
    process_onspd_csv ip fk tables rows.length f =
      process_onspd_csv ip fk tables 1 f := by
  obtain ⟨fe, hr, br⟩ := f
  simp only at h
  subst h
  cases fe with
  | false => rfl
  | true =>
    cases hr with
    | error e => rfl
    | ok cols =>
      rw [process_csv_ok, process_csv_ok]

/-- Witness for C5: a two-row file, chunk size 2 versus chunk size 1. -/
theorem c5_chunking_w :
    c5file.bodyRead = .ok [["x", "AB1 2CD"], ["y", "ZZ9 9ZZ"]] ∧
    process_onspd_csv ip0 fk0 tb0 2 c5file = process_onspd_csv ip0 fk0 tb0 1 c5file :=
  ⟨rfl, c5_chunking ip0 fk0 tb0 c5file [["x", "AB1 2CD"], ["y", "ZZ9 9ZZ"]] rfl⟩

/-- C6: enrichment is additive.  For any record, the enricher leaves every
field outside the derived label fields untouched, and the extractor never
populates a label field, so an unenriched record coincides with the
enriched one minus the label fields; in particular every coded field is
unchanged. -/
theorem c6_enrich_additive (ip : String → Option Int) (fk : String → Bool)
    (tables : String → Option LookupTable) (hm : String → Option Nat)
    (row : List String) (r : FlatRecord) (k : String) :
    (k ∉ labelFieldNames → enrichRecord tables r k = r k) ∧
    (k ∈ labelFieldNames → extractRow ip fk hm row k = none) := by
  constructor
  · exact fun h => enrichRecord_frame tables r k h
  · intro hk
    have hall : ∀ x ∈ labelFieldNames, ∀ m ∈ ONSPD_FIELD_MAPPINGS, x ≠ m.column := by
      decide
    unfold extractRow
    rw [extractFold_frame ip fk hm row _ _ _ (hall k hk)]
    rfl

/-- Witness for C6: the coded `country_code` field survives enrichment and
the `country` label is absent before enrichment. -/
theorem c6_enrich_additive_w :
    (enrichRecord tb0 c7rec "country_code" = c7rec "country_code") ∧
    (extractRow ip0 fk0 hmPc rowPlain "country" = none) :=
  ⟨(c6_enrich_additive ip0 fk0 tb0 hmPc rowPlain c7rec "country_code").1 (by decide),
    (c6_enrich_additive ip0 fk0 tb0 hmPc rowPlain c7rec "country").2 (by decide)⟩

theorem extractRow_postcode (ip : String → Option Int) (fk : String → Bool)
    (hm : String → Option Nat) (row : List String) :
    extractRow ip fk hm row "postcode" =
      extractField ip fk hm row ⟨"postcode", "pcds", none, none, none⟩ :=
  extractRow_at ip fk hm row 0 ⟨"postcode", "pcds", none, none, none⟩
    (by decide) (by decide)

theorem extractRow_pc_compact (ip : String → Option Int) (fk : String → Bool)
    (hm : String → Option Nat) (row : List String) :
    extractRow ip fk hm row "pc_compact" =
      extractField ip fk hm row ⟨"pc_compact", "pcds", none, some .compactT, none⟩ :=
  extractRow_at ip fk hm row 1 ⟨"pc_compact", "pcds", none, some .compactT, none⟩
    (by decide) (by decide)

theorem extractRow_incode (ip : String → Option Int) (fk : String → Bool)
    (hm : String → Option Nat) (row : List String) :
    extractRow ip fk hm row "incode" =
      extractField ip fk hm row ⟨"incode", "pcds", none, some .incodeT, none⟩ :=
  extractRow_at ip fk hm row 20 ⟨"incode", "pcds", none, some .incodeT, none⟩
    (by decide) (by decide)

theorem extractRow_outcode (ip : String → Option Int) (fk : String → Bool)
    (hm : String → Option Nat) (row : List String) :
    extractRow ip fk hm row "outcode" =
      extractField ip fk hm row ⟨"outcode", "pcds", none, some .outcodeT, none⟩ :=
  extractRow_at ip fk hm row 21 ⟨"outcode", "pcds", none, some .outcodeT, none⟩
    (by decide) (by decide)

theorem extractField_pcds_tf (ip : String → Option Int) (fk : String → Bool)
    (hm : String → Option Nat) (row : List String) (col : String) (tr : Transform)
    (j : Nat) (v : String)
    (hj : hm "pcds" = some j) (hlt : j < row.length)
    (hrc : readCell row j = some v) (hv : v ≠ "") :
    extractField ip fk hm row ⟨col, "pcds", none, some tr, none⟩ =
      some (.str (applyTransform tr v)) := by
  unfold extractField
  simp only [hj]
  rw [if_pos hlt]
  simp only [depNull, applyTf, hrc]
  rw [if_neg hv]
  show (if applyTransform tr v = "" then some (Value.str (applyTransform tr v))
      else some (Value.str (applyTransform tr v))) = some (Value.str (applyTransform tr v))
  exact ite_self _

/-- C7: every record in the output of chunk processing has a non-empty,
non-null string `postcode` field; rows whose extracted postcode is null or
empty are discarded. -/
theorem c7_postcode_nonempty (ip : String → Option Int) (fk : String → Bool)
    (tables : String → Option LookupTable) (hm : String → Option Nat)
    (rows : List (List String)) (r : FlatRecord)
    (hr : r ∈ processChunk ip fk tables hm rows) :
    ∃ s, r "postcode" = some (Value.str s) ∧ s ≠ "" := by
  obtain ⟨row, hrow, hpr⟩ := List.mem_filterMap.mp hr
  obtain ⟨hre, v, hv, ht⟩ := processRow_some ip fk tables hm row r hpr
  have hv0 := hv
  have hfr : enrichRecord tables (extractRow ip fk hm row) "postcode" =
      extractRow ip fk hm row "postcode" :=
    enrichRecord_frame tables _ _ (by decide)
  rw [hfr, extractRow_postcode, extractField_plain _ _ _ _ _ rfl rfl rfl] at hv
  split at hv
  · exact Option.noConfusion hv
  next i hpc =>
    split at hv
    · cases hrc : readCell row i <;> rw [hrc] at hv
      · exact Option.noConfusion hv
      · next s =>
        obtain ⟨hs1, hs2, hs3⟩ := readCell_some row i s hrc
        have hveq : v = Value.str s := (Option.some.inj hv).symm
        refine ⟨s, ?_, hs2⟩
        rw [hre, hv0, hveq]
    · exact Option.noConfusion hv

/-- Witness for C7: the record produced from `rowPlain`. -/
theorem c7_postcode_nonempty_w :
    ∃ s, c7rec "postcode" = some (Value.str s) ∧ s ≠ "" :=
  c7_postcode_nonempty ip0 fk0 tb0 hmPc [rowPlain] c7rec
    (by
      have h : processChunk ip0 fk0 tb0 hmPc [rowPlain] = c7rec :: [] := rfl
      rw [h]
      exact List.mem_singleton.mpr rfl)

/-- C8: for a retained row whose trimmed pcds value contains no space, the
extractor sets `incode` and `outcode` to the empty string (not null),
`postcode` keeps the whole trimmed cell value, and `pc_compact` is the cell
value with all spaces removed. -/
theorem c8_no_space (ip : String → Option Int) (fk : String → Bool)
    (tables : String → Option LookupTable) (hm : String → Option Nat)
    (row : List String) (r : FlatRecord) (j : Nat)
    (hj : hm "pcds" = some j) (hlt : j < row.length)
    (hsp : (stripStr (pdCell row j)).data.contains ' ' = false)
    (hr : processRow ip fk tables hm row = some r) :
    r "incode" = some (.str "") ∧ r "outcode" = some (.str "") ∧
    r "postcode" = some (.str (stripStr (pdCell row j))) ∧
    r "pc_compact" = some (.str (remSpaces (stripStr (pdCell row j)))) := by
  obtain ⟨hre, w, hw, htw⟩ := processRow_some ip fk tables hm row r hr
  cases hrc : readCell row j with
  | none =>
    exfalso
    have hfr : enrichRecord tables (extractRow ip fk hm row) "postcode" =
        extractRow ip fk hm row "postcode" :=
      enrichRecord_frame tables _ _ (by decide)
    rw [hfr, extractRow_postcode, extractField_plain _ _ _ _ _ rfl rfl rfl] at hw
    simp only [hj] at hw
    rw [if_pos hlt, hrc] at hw
    exact Option.noConfusion hw
  | some u =>
    obtain ⟨hu1, hu2, hu3⟩ := readCell_some row j u hrc
    rw [← hu1] at hsp ⊢
    have hcond : ¬(u ≠ "" ∧ u.data.contains ' ') := by
      intro hcc
      rw [hsp] at hcc
      exact Bool.noConfusion hcc.2
    have hin : applyTransform .incodeT u = "" := by
      simp only [applyTransform]
      rw [if_neg hcond]
    have hout : applyTransform .outcodeT u = "" := by
      simp only [applyTransform]
      rw [if_neg hcond]
    have hcp : applyTransform .compactT u = remSpaces u := by
      simp only [applyTransform]
      rw [if_neg hu2]
    refine ⟨?_, ?_, ?_, ?_⟩
    · rw [hre, enrichRecord_frame tables _ _ (by decide), extractRow_incode,
        extractField_pcds_tf ip fk hm row _ _ j u hj hlt hrc hu2, hin]
    · rw [hre, enrichRecord_frame tables _ _ (by decide), extractRow_outcode,
        extractField_pcds_tf ip fk hm row _ _ j u hj hlt hrc hu2, hout]
    · rw [hre, enrichRecord_frame tables _ _ (by decide), extractRow_postcode,
        extractField_plain _ _ _ _ _ rfl rfl rfl]
      simp only [hj]
      rw [if_pos hlt, hrc]
      rfl
    · rw [hre, enrichRecord_frame tables _ _ (by decide), extractRow_pc_compact,
        extractField_pcds_tf ip fk hm row _ _ j u hj hlt hrc hu2, hcp]

/-- Witness for C8: `rowNoSpace`, whose pcds cell is "AB12CD". -/
theorem c8_no_space_w :
    c8rec "incode" = some (.str "") ∧ c8rec "outcode" = some (.str "") ∧
    c8rec "postcode" = some (.str (stripStr (pdCell rowNoSpace 1))) ∧
    c8rec "pc_compact" = some (.str (remSpaces (stripStr (pdCell rowNoSpace 1)))) :=
  c8_no_space ip0 fk0 tb0 hmPc rowNoSpace c8rec 1 (by decide) (by decide) (by decide) rfl

/-- C2 counterexample: the doterm cell of `rowNanDoterm` holds the literal
text "nan" — non-empty after trimming — yet the row is retained, appears in
the active-filtered output set, and is counted in the total and active
statistics, with the terminated statistic at 0. -/
theorem c2_terminated_cex :
    stripStr (pdCell rowNanDoterm 2) ≠ "" ∧
    (activeFilter (okRecs (process_onspd_csv_directory ip0 fk0 tb0 1 dirNanDoterm))).length
      = 1 ∧
    ((activeFilter (okRecs (process_onspd_csv_directory ip0 fk0 tb0 1 dirNanDoterm))).getD 0
      emptyRecord) "postcode" = some (.str "AB1 2CD") ∧
    okStats (process_onspd_csv_directory ip0 fk0 tb0 1 dirNanDoterm) = ⟨1, 1, 0, 0⟩ :=
  ⟨by decide, by decide, by decide, by decide⟩

/-- C2 amended: for every row whose doterm cell, resolved through the
file's header map to an in-range index, is non-empty after trimming and
differs from the literal "nan", the row never appears in the processed
output and contributes to no statistic: deleting the row from its file
leaves both the combined records and all statistics unchanged. -/
theorem c2_terminated_amended (ip : String → Option Int) (fk : String → Bool)
    (tables : String → Option LookupTable) (cs : Nat) (dex hex : Bool)
    (fpre fpost : List CsvFile) (cols : List String)
    (rpre rpost : List (List String)) (row : List String) (i : Nat)
    (h1 : buildHeaderMap cols "doterm" = some i) (h2 : i < row.length)
    (h3 : stripStr (pdCell row i) ≠ "") (h4 : stripStr (pdCell row i) ≠ "nan") :
    process_onspd_csv_directory ip fk tables cs
        ⟨dex, fpre ++ ⟨hex, .ok cols, .ok (rpre ++ row :: rpost)⟩ :: fpost⟩ =
      process_onspd_csv_directory ip fk tables cs
        ⟨dex, fpre ++ ⟨hex, .ok cols, .ok (rpre ++ rpost)⟩ :: fpost⟩ := by
  have hfile : process_onspd_csv ip fk tables cs ⟨hex, .ok cols, .ok (rpre ++ row :: rpost)⟩ =
      process_onspd_csv ip fk tables cs ⟨hex, .ok cols, .ok (rpre ++ rpost)⟩ := by
    cases hex with
    | false => rfl
    | true =>
      rw [process_csv_ok, process_csv_ok]
      unfold processChunk
      rw [List.filterMap_append, List.filterMap_append, List.filterMap_cons,
        processRow_skip ip fk tables _ row i h1 h2 h3 h4]
  unfold process_onspd_csv_directory
  cases dex with
  | false => rfl
  | true =>
    have hne : ∀ f : CsvFile, (fpre ++ f :: fpost).isEmpty = false := by
      intro f
      cases fpre <;> rfl
    simp only [hne]
    rw [exMapM_congr_mid _ fpre fpost _ _ hfile]

/-- Witness for C2 amended: deleting a row with doterm "2020-01-01" changes
nothing. -/
theorem c2_terminated_amended_w :
    buildHeaderMap ["pcd", "pcds", "doterm"] "doterm" = some 2 ∧
    process_onspd_csv_directory ip0 fk0 tb0 1
        ⟨true, [⟨true, .ok ["pcd", "pcds", "doterm"],
          .ok [["AB1 2CD", "AB1 2CD", "2020-01-01"]]⟩]⟩ =
      process_onspd_csv_directory ip0 fk0 tb0 1
        ⟨true, [⟨true, .ok ["pcd", "pcds", "doterm"], .ok []⟩]⟩ :=
  ⟨by decide,
    c2_terminated_amended ip0 fk0 tb0 1 true true [] [] ["pcd", "pcds", "doterm"] [] []
      ["AB1 2CD", "AB1 2CD", "2020-01-01"] 2 (by decide) (by decide) (by decide) (by decide)⟩

/-- C3 counterexample: an existing directory with zero CSV files makes
`process_onspd_csv_directory` raise (ValueError), not return an empty
result with a warning. -/
theorem c3_empty_dir_cex :
    process_onspd_csv_directory ip0 fk0 tb0 50000 ⟨true, []⟩ =
      .error "No CSV files found" := rfl

/-- C3 amended: an existing directory with zero matching CSV files raises
an error (ValueError "No CSV files found") and aborts the run; the
empty-result-with-warning path occurs only when matching files exist but
none contributes any data. -/
theorem c3_empty_dir_amended (ip : String → Option Int) (fk : String → Bool)
    (tables : String → Option LookupTable) (cs : Nat) (d : CsvDir)
    (hex : d.dirExists = true) (hfiles : d.files = []) :
    process_onspd_csv_directory ip fk tables cs d = .error "No CSV files found" := by
  unfold process_onspd_csv_directory
  rw [hex, hfiles]
  rfl

/-- Witness for C3 amended. -/
theorem c3_empty_dir_amended_w :
    process_onspd_csv_directory ip0 fk0 tb0 1 ⟨true, []⟩ =
      .error "No CSV files found" :=
  c3_empty_dir_amended ip0 fk0 tb0 1 ⟨true, []⟩ rfl rfl

/-- C4 counterexample: a file whose header-only read raises aborts the
whole directory run (the header read sits outside the `try` block), even
though a later healthy file would have contributed a row. -/
theorem c4_file_error_cex :
    process_onspd_csv_directory ip0 fk0 tb0 1 ⟨true, [badHeaderFile, goodFile]⟩ =
      .error "parse error" ∧
    (okRecs (process_onspd_csv_directory ip0 fk0 tb0 1 ⟨true, [goodFile]⟩)).length = 1 :=
  ⟨rfl, by decide⟩

/-- C4 amended: an error raised during the chunked body read is caught and
the file contributes zero rows; and whenever every discovered file exists
and has a readable header, the directory run completes (returns `ok`)
regardless of body-read failures.  Header-read errors, by contrast,
propagate and abort the run. -/
theorem c4_file_error_amended (ip : String → Option Int) (fk : String → Bool)
    (tables : String → Option LookupTable) (cs : Nat) :
    (∀ (f : CsvFile) (cols : List String) (e : String),
      f.fileExists = true → f.headerRead = .ok cols → f.bodyRead = .error e →
      process_onspd_csv ip fk tables cs f = .ok []) ∧
    (∀ d : CsvDir, d.dirExists = true → d.files ≠ [] →
      (∀ f ∈ d.files, f.fileExists = true ∧ ∃ cols, f.headerRead = .ok cols) →
      ∃ res, process_onspd_csv_directory ip fk tables cs d = .ok res) := by
  constructor
  · intro f cols e h1 h2 h3
    unfold process_onspd_csv
    rw [h1, h2, h3]
    rfl
  · intro d h1 h2 hall
    obtain ⟨ys, hys⟩ := exMapM_ok (process_onspd_csv ip fk tables cs) d.files
      (by
        intro f hf
        obtain ⟨hfe, cols, hcols⟩ := hall f hf
        cases hbr : f.bodyRead with
        | error e =>
          refine ⟨[], ?_⟩
          unfold process_onspd_csv
          rw [hfe, hcols, hbr]
          rfl
        | ok rows =>
          refine ⟨((chunksOf cs rows).map
            (processChunk ip fk tables (buildHeaderMap cols))).flatten, ?_⟩
          unfold process_onspd_csv
          rw [hfe, hcols, hbr]
          rfl)
    have hie : d.files.isEmpty = false := by
      cases hfl : d.files with
      | nil => exact absurd hfl h2
      | cons a l => rfl
    unfold process_onspd_csv_directory
    rw [h1, hie]
    simp only [Bool.true_eq_false, Bool.false_eq_true, if_false]
    rw [hys]
    simp only
    split
    · exact ⟨_, rfl⟩
    · exact ⟨_, rfl⟩

/-- Witness for C4 amended: a body-error file contributes zero rows and a
run over it plus a healthy file still completes. -/
theorem c4_file_error_amended_w :
    process_onspd_csv ip0 fk0 tb0 1 bodyErrFile = .ok [] ∧
    ∃ res, process_onspd_csv_directory ip0 fk0 tb0 1 ⟨true, [bodyErrFile, goodFile]⟩ =
      .ok res :=
  ⟨(c4_file_error_amended ip0 fk0 tb0 1).1 bodyErrFile ["pcd", "pcds"] "io error" rfl rfl rfl,
    (c4_file_error_amended ip0 fk0 tb0 1).2 ⟨true, [bodyErrFile, goodFile]⟩ rfl
      (List.cons_ne_nil _ _)
      (by
        intro f hf
        rcases List.mem_cons.mp hf with h | h
        · subst h
          exact ⟨rfl, ["pcd", "pcds"], rfl⟩
        · rcases List.mem_cons.mp h with h2 | h2
          · subst h2
            exact ⟨rfl, ["pcd", "pcds"], rfl⟩
          · exact absurd h2 (List.not_mem_nil f))⟩

/-- C10: after directory processing completes successfully, the statistics
satisfy active ≤ total, with-coordinates ≤ total, and
terminated = total − active ≥ 0. -/
theorem c10_stats (ip : String → Option Int) (fk : String → Bool)
    (tables : String → Option LookupTable) (cs : Nat) (d : CsvDir)
    (recs : List FlatRecord) (st : ProcessingStats)
    (h : process_onspd_csv_directory ip fk tables cs d = .ok (recs, st)) :
    st.active_postcodes ≤ st.total_rows_processed ∧
    st.with_coordinates ≤ st.total_rows_processed ∧
    st.terminated_postcodes = st.total_rows_processed - st.active_postcodes ∧
    0 ≤ st.terminated_postcodes := by
  unfold process_onspd_csv_directory at h
  split at h
  · exact Except.noConfusion h
  split at h
  · exact Except.noConfusion h
  split at h
  · exact Except.noConfusion h
  next results hres =>
    have hinv := dirFold_inv results ([], (⟨0, 0, 0, 0⟩ : ProcessingStats))
      ⟨le_refl 0, le_refl 0, rfl, fun _ => ⟨rfl, rfl⟩⟩
    set p := results.foldl dirStep ([], (⟨0, 0, 0, 0⟩ : ProcessingStats)) with hp
    obtain ⟨i1, i2, i3, i4⟩ := hinv
    simp only at h
    split at h
    · next hemp =>
      obtain ⟨hre, hst⟩ := Prod.mk.injEq _ _ _ _ |>.mp (Except.ok.inj h).symm
      obtain ⟨ht0, ha0⟩ := i4 (List.isEmpty_iff.mp hemp)
      have hact : st.active_postcodes = 0 := by rw [hst, ha0]
      have htot : st.total_rows_processed = 0 := by rw [hst, ht0]
      have hterm : st.terminated_postcodes = 0 := by rw [hst]; exact i3
      have hco : st.with_coordinates ≤ st.total_rows_processed := by rw [hst]; exact i2
      exact ⟨by omega, hco, by omega, by omega⟩
    · obtain ⟨hre, hst⟩ := Prod.mk.injEq _ _ _ _ |>.mp (Except.ok.inj h).symm
      have hact : st.active_postcodes = p.2.active_postcodes := by rw [hst]
      have htot : st.total_rows_processed = p.2.total_rows_processed := by rw [hst]
      have hco : st.with_coordinates = p.2.with_coordinates := by rw [hst]
      have hterm : st.terminated_postcodes =
          p.2.total_rows_processed - p.2.active_postcodes := by rw [hst]
      refine ⟨?_, ?_, ?_, ?_⟩
      · rw [hact, htot]
        exact i1
      · rw [hco, htot]
        exact i2
      · rw [hterm, htot, hact]
      · rw [hterm]
        omega

/-- Witness for C10: a run whose single file has no data rows. -/
theorem c10_stats_w :
    st0.active_postcodes ≤ st0.total_rows_processed ∧
    st0.with_coordinates ≤ st0.total_rows_processed ∧
    st0.terminated_postcodes = st0.total_rows_processed - st0.active_postcodes ∧
    0 ≤ st0.terminated_postcodes :=
  c10_stats ip0 fk0 tb0 1 dEmptyRows [] st0 rfl

end Onspd
